import Mathlib

/-!
Shallow embedding of the SelfTrading-Analytics client simulation store
(`useSimulationStore`), its results normalization (`useResultsStore`) and the
reset flow, translated from the JavaScript sources.  JavaScript numbers are
modelled as rationals (`ℚ`), `null`/`undefined` as `Option.none`, millisecond
timestamps and ISO date strings as integers (a `Date.toISOString` value is
identified with its underlying epoch-milliseconds), and `Math.round` as
`⌊q + 1/2⌋`.
-/

namespace SelfTrading

/-- JavaScript `Math.round`: round half up, `Math.round(q) = ⌊q + 1/2⌋`. -/
def mathRound (q : ℚ) : ℤ := ⌊q + 1/2⌋

/-- Truthiness of an optional JS number: `undefined`/`null` and `0` are falsy. -/
def truthyQ : Option ℚ → Bool
  | some q => q != 0
  | none => false

/-- Truthiness of an optional JS integer (timestamps): falsy when absent or `0`. -/
def truthyZ : Option ℤ → Bool
  | some t => t != 0
  | none => false

/-- Constant `etaRateSmoother = 0.1` — EMA alpha for smoothing rate calculations. -/
def etaRateSmoother : ℚ := 1/10

/-- Constant `ETA_PUBLISH_MIN_INTERVAL_MS = 30000` — update visible ETA at most every 30s. -/
def ETA_PUBLISH_MIN_INTERVAL_MS : ℤ := 30000

/-- Constant `ETA_PUBLISH_MIN_DELTA_SECONDS = 60` — or if ETA changes by >= 1 minute. -/
def ETA_PUBLISH_MIN_DELTA_SECONDS : ℤ := 60

/-- Constant `ETA_TTL_MS = 60 * 1000` — 1 minute TTL for cached ETA. -/
def ETA_TTL_MS : ℤ := 60 * 1000

/-- Per-timeframe progress payload passed through from the snapshot
(`progressData.timeframes`); its internal shape is irrelevant to the store,
which copies it verbatim, so it is modelled as an association list. -/
def TfData := List (String × ℚ)

instance : DecidableEq TfData := by
  unfold TfData
  infer_instance

/-- Fields of the `/analytics/progress` snapshot that the store reads.
`none` stands for a missing (`undefined`) or `null` field. -/
structure ProgressData where
  sim_time_epoch : Option ℚ
  max_epoch : Option ℚ
  state : Option String
  progress_percent : Option ℚ
  progress : Option ℚ
  total_buys : Option ℚ
  total_sells : Option ℚ
  sim_time_iso : Option String
  current_runner_info : Option String
  estimated_finish_iso : Option ℤ
  estimated_finish_seconds : Option ℚ
  timeframes : Option TfData
  deriving DecidableEq

/-- Fields of the `/analytics/simulation/state` snapshot that the store reads. -/
structure StateData where
  running : Option Bool
  is_running : Option Bool
  state : Option String
  status : Option String
  progress_percent : Option ℚ
  progress : Option ℚ
  total_buys : Option ℚ
  total_sells : Option ℚ
  last_ts : Option String
  snapshot_age_seconds : Option ℚ
  deriving DecidableEq

/-- The pinia `status` ref of the simulation store. -/
structure SimStatus where
  state : String
  progress_percent : ℤ
  eta_seconds : Option ℚ
  estimated_finish_iso : Option ℤ
  rate : Option ℚ
  total_buys : ℚ
  total_sells : ℚ
  last_ts : Option String
  current : Option String
  snapshot_age_seconds : Option ℚ
  timeframes : Option TfData
  deriving DecidableEq

/-- The store's module-level ETA tracking variables. -/
structure TrackerState where
  lastProgressData : Option ProgressData
  lastPollTime : Option ℤ
  lastEtaPublishAtMs : Option ℤ
  lastEtaPublishedSeconds : Option ℤ
  deriving DecidableEq

/-- One entry of the sessionStorage ETA cache (`analytics_eta_cache_v1`). -/
structure EtaCacheEntry where
  whenMs : ℤ
  etaSeconds : Option ℚ
  finishIso : Option ℤ
  rate : Option ℚ
  deriving DecidableEq

/-- Source `readEtaCache`: return the cached entry unless it is absent, its `when`
field is falsy, or it is older than `ETA_TTL_MS`. -/
def readEtaCache (now : ℤ) (cache : Option EtaCacheEntry) : Option EtaCacheEntry :=
  match cache with
  | none => none
  | some obj =>
    if obj.whenMs = 0 ∨ (now - obj.whenMs) > ETA_TTL_MS then none else some obj

/-- Source `writeEtaCache(etaSeconds, finishIso, rate)` stamped with `Date.now()`. -/
def writeEtaCache (now : ℤ) (etaSeconds : Option ℚ) (finishIso : Option ℤ)
    (rate : Option ℚ) : Option EtaCacheEntry :=
  some { whenMs := now, etaSeconds := etaSeconds, finishIso := finishIso, rate := rate }

/-- SessionStorage slice that the polling tick and `reset` touch. -/
structure SessionState where
  etaCache : Option EtaCacheEntry
  simCache : Option SimStatus
  importCacheSet : Bool
  deriving DecidableEq

/-- Combined state threaded through one polling tick. -/
structure PollState where
  status : SimStatus
  tracker : TrackerState
  sess : SessionState
  deriving DecidableEq

/-- Source line `simSecondsPerTick = progressData.sim_time_epoch - lastProgressData.sim_time_epoch`. -/
def simSecondsPerTick (p lastP : ProgressData) : ℚ :=
  p.sim_time_epoch.getD 0 - lastP.sim_time_epoch.getD 0

/-- Source line `wallSecondsPerTick = (now - lastPollTime) / 1000`. -/
def wallSecondsPerTick (now lastT : ℤ) : ℚ :=
  ((now - lastT : ℤ) : ℚ) / 1000

/-- The EMA smoothing step: `status.value.rate ? α*current + (1-α)*rate : current`
(a falsy stored rate — absent or `0` — yields the current rate unchanged). -/
def smoothedRateOf (prev : Option ℚ) (currentRate : ℚ) : ℚ :=
  if truthyQ prev then
    etaRateSmoother * currentRate + (1 - etaRateSmoother) * prev.getD 0
  else currentRate

/-- Source line `remainingSimSeconds = progressData.max_epoch - progressData.sim_time_epoch`. -/
def remainingSimSeconds (p : ProgressData) : ℚ :=
  p.max_epoch.getD 0 - p.sim_time_epoch.getD 0

/-- Source line `shouldPublishByTime = !lastEtaPublishAtMs || (now - lastEtaPublishAtMs) >= ETA_PUBLISH_MIN_INTERVAL_MS`. -/
def shouldPublishByTime (lastPubAt : Option ℤ) (now : ℤ) : Bool :=
  match lastPubAt with
  | none => true
  | some t => decide (t = 0) || decide (ETA_PUBLISH_MIN_INTERVAL_MS ≤ now - t)

/-- Source line `shouldPublishByDelta = (lastEtaPublishedSeconds == null) || |newEta - last| >= ETA_PUBLISH_MIN_DELTA_SECONDS`. -/
def shouldPublishByDelta (lastPubSec : Option ℤ) (newEta : ℤ) : Bool :=
  match lastPubSec with
  | none => true
  | some l => decide (ETA_PUBLISH_MIN_DELTA_SECONDS ≤ |newEta - l|)

/-- The guard of the client-side ETA calculation:
`progressData && progressData.sim_time_epoch && progressData.max_epoch && progressData.state === 'running'`. -/
def etaGuard : Option ProgressData → Bool
  | some p => truthyQ p.sim_time_epoch && truthyQ p.max_epoch && (p.state == some "running")
  | none => false

/-- Lines 130–184 of the polling tick: the client-side ETA calculation
(running branch) or the idle branch that falls back to the cached ETA. -/
def etaStep (st : SimStatus) (tr : TrackerState) (sess : SessionState)
    (pOpt : Option ProgressData) (now : ℤ) : SimStatus × TrackerState × SessionState :=
  match pOpt, etaGuard pOpt with
  | some p, true =>
    let inner : SimStatus × TrackerState × SessionState :=
      match tr.lastProgressData, tr.lastPollTime with
      | some lastP, some lastT =>
        if lastT = 0 then (st, tr, sess) else
        let sd := simSecondsPerTick p lastP
        let wd := wallSecondsPerTick now lastT
        if sd > 0 ∧ wd > 0 then
          let currentRate := sd / wd
          let smoothedRate := smoothedRateOf st.rate currentRate
          let st1 := { st with rate := some smoothedRate }
          let rem := remainingSimSeconds p
          if rem > 0 ∧ smoothedRate > 0 then
            let newEtaSeconds := mathRound (rem / smoothedRate)
            let newFinishIso := now + newEtaSeconds * 1000
            if shouldPublishByTime tr.lastEtaPublishAtMs now
                || shouldPublishByDelta tr.lastEtaPublishedSeconds newEtaSeconds then
              let st2 := { st1 with
                eta_seconds := some (newEtaSeconds : ℚ),
                estimated_finish_iso := some newFinishIso }
              (st2,
               { tr with lastEtaPublishAtMs := some now,
                         lastEtaPublishedSeconds := some newEtaSeconds },
               { sess with etaCache :=
                   writeEtaCache now st2.eta_seconds st2.estimated_finish_iso st2.rate })
            else
              -- keep internal cache fresh without updating UI-facing fields
              (st1, tr,
               { sess with etaCache :=
                   writeEtaCache now (some (newEtaSeconds : ℚ)) (some newFinishIso) st1.rate })
          else
            ({ st1 with eta_seconds := some 0, estimated_finish_iso := some now }, tr, sess)
        else (st, tr, sess)
      | _, _ => (st, tr, sess)
    (inner.1,
     { inner.2.1 with lastProgressData := some p, lastPollTime := some now },
     inner.2.2)
  | _, _ =>
    -- reset if not running; keep last cached ETA while idle to avoid flicker
    let tr1 : TrackerState :=
      { lastProgressData := none, lastPollTime := none,
        lastEtaPublishAtMs := none, lastEtaPublishedSeconds := none }
    match readEtaCache now sess.etaCache with
    | some cached =>
      ({ st with eta_seconds := cached.etaSeconds,
                 estimated_finish_iso := cached.finishIso,
                 rate := cached.rate }, tr1, sess)
    | none =>
      ({ st with eta_seconds := none, estimated_finish_iso := none }, tr1, sess)

/-- Source line `runningFlag = stateData && (typeof stateData.running !== 'undefined' ? stateData.running : stateData.is_running)`,
collapsed to its truth value. -/
def runningFlagOf : Option StateData → Bool
  | none => false
  | some sd =>
    match sd.running with
    | some b => b
    | none => sd.is_running.getD false

/-- Lines 186–214 of the polling tick: derive user-facing values, preferring the
progress snapshot, then persist the status to the session cache. -/
def deriveStep (st : SimStatus) (sess : SessionState)
    (pOpt : Option ProgressData) (sdOpt : Option StateData) : SimStatus × SessionState :=
  let runningFlag := runningFlagOf sdOpt
  let percent : ℚ :=
    ((pOpt.bind (·.progress_percent)).orElse fun _ =>
     (pOpt.bind (·.progress)).orElse fun _ =>
     (sdOpt.bind (·.progress_percent)).orElse fun _ =>
     (sdOpt.bind (·.progress))).getD 0
  let totalBuys : ℚ :=
    ((pOpt.bind (·.total_buys)).orElse fun _ => (sdOpt.bind (·.total_buys))).getD st.total_buys
  let totalSells : ℚ :=
    ((pOpt.bind (·.total_sells)).orElse fun _ => (sdOpt.bind (·.total_sells))).getD st.total_sells
  let lastTs : Option String :=
    (pOpt.bind (·.sim_time_iso)).orElse fun _ =>
      (sdOpt.bind (·.last_ts)).orElse fun _ => st.last_ts
  let currentRunnerInfo : Option String := pOpt.bind (·.current_runner_info)
  let st1 := { st with
    state := ((sdOpt.bind (·.state)).orElse fun _ => (sdOpt.bind (·.status))).getD
      (if runningFlag then "running" else "idle"),
    progress_percent := mathRound percent,
    total_buys := totalBuys,
    total_sells := totalSells,
    last_ts := lastTs,
    current := currentRunnerInfo,
    snapshot_age_seconds := sdOpt.bind (·.snapshot_age_seconds) }
  let st2 :=
    match pOpt.bind (·.estimated_finish_iso) with
    | some f => { st1 with estimated_finish_iso := some f }
    | none => st1
  let st3 :=
    match pOpt.bind (·.estimated_finish_seconds) with
    | some v => { st2 with eta_seconds := some v }
    | none => st2
  let st4 :=
    match pOpt.bind (·.timeframes) with
    | some tf => { st3 with timeframes := some tf }
    | none => st3
  (st4, { sess with simCache := some st4 })

/-- One full polling tick (`_startPolling` interval body, lines 130–214). -/
def pollTick (s : PollState) (pOpt : Option ProgressData) (sdOpt : Option StateData)
    (now : ℤ) : PollState :=
  let r1 := etaStep s.status s.tracker s.sess pOpt now
  let r2 := deriveStep r1.1 r1.2.2 pOpt sdOpt
  { status := r2.1, tracker := r1.2.1, sess := r2.2 }

/-! ## Reset flow (`reset` in the simulation store) -/

/-- Modelled from the spec: `reset_status(job_id)` →
`{status: pending|completed|failed, deleted_counts?, error?}`.  The client
accessor `SimulationAPI.resetStatus` is absent from the `api.js` snapshot under
`src/`, so its response shape is taken from the spec's reset-job contract. -/
structure ResetStatusResp where
  status : Option String
  error : Option String
  deleted : Option ℚ
  deriving DecidableEq

/-- Predicate `st === 'completed' || st === 'failed'` for `st = statusRes?.status`. -/
def isTerminalResp : Option ResetStatusResp → Bool
  | some r => (r.status == some "completed") || (r.status == some "failed")
  | none => false

/-- The reset polling loop: repeatedly query `SimulationAPI.resetStatus`
(`responses k` is the k-th poll's reply, `none` on a failed request), stopping
early on a terminal status and otherwise returning the last reply when the
deadline exhausts the iteration budget. -/
def resetPollLoop (responses : ℕ → Option ResetStatusResp) :
    ℕ → ℕ → Option ResetStatusResp → Option ResetStatusResp
  | 0, _, last => last
  | fuel + 1, k, _ =>
    let r := responses k
    if isTerminalResp r then r else resetPollLoop responses fuel (k + 1) r

/-- Number of `resetStatus` polls that fit before the 120 s deadline: polls
happen at `250 + 750·k` ms and the loop runs while that is `< 120000`. -/
def RESET_MAX_POLLS : ℕ := 160

/-- Result object returned by the store's `reset()`. -/
structure ResetResult where
  ok : Bool
  message : String
  statusStr : Option String
  deleted : Option ℚ
  deriving DecidableEq

/-- The initial `status` object the store resets to after a confirmed reset
(lines 528–539). -/
def idleStatus : SimStatus :=
  { state := "idle", progress_percent := 0, eta_seconds := none,
    estimated_finish_iso := none, rate := none, total_buys := 0, total_sells := 0,
    last_ts := none, current := none, snapshot_age_seconds := none, timeframes := none }

/-- The store's `reset()` (lines 492–547): schedule the server-side reset,
poll `resetStatus` until a terminal status or timeout, and clear the local
state and session caches only after the server confirms completion. -/
def resetRun (s : PollState) (responses : ℕ → Option ResetStatusResp) :
    PollState × ResetResult :=
  let statusRes := resetPollLoop responses RESET_MAX_POLLS 0 none
  match statusRes with
  | some r =>
    if r.status = some "completed" then
      ({ status := idleStatus,
         tracker := { s.tracker with lastProgressData := none, lastPollTime := none },
         sess := { etaCache := none, simCache := some idleStatus, importCacheSet := false } },
       { ok := true, message := "Reset completed", statusStr := some "completed",
         deleted := r.deleted })
    else
      (s, { ok := false,
            message := match r.error with
              | some e => "Reset failed: " ++ e
              | none => "Reset timed out before completion",
            statusStr := match r.status with
              | some st => some st
              | none => some "unknown",
            deleted := none })
  | none =>
    (s, { ok := false, message := "Reset timed out before completion",
          statusStr := some "unknown", deleted := none })

/-! ## Results normalization (`useResultsStore`) -/

/-- A JavaScript number: finite, `NaN`, or an infinity. -/
inductive JSNum where
  | fin (q : ℚ)
  | nan
  | posInf
  | negInf
  deriving DecidableEq

/-- A JavaScript value as consumed by `safeNumber`/`safeInt`.  A string is
abstracted by the results of `parseFloat` and `parseInt` on it. -/
inductive JSVal where
  | num (n : JSNum)
  | str (pf : JSNum) (pi : JSNum)
  | null
  | undef
  | bool (b : Bool)
  deriving DecidableEq

/-- JavaScript `Number.isFinite`. -/
def jsIsFinite : JSNum → Bool
  | .fin _ => true
  | _ => false

/-- Source `safeNumber(val)`: `parseFloat` for strings, `Number` coercion otherwise,
then replace non-finite values with `0`. -/
def safeNumber (v : JSVal) : JSNum :=
  let n : JSNum :=
    match v with
    | .str pf _ => pf
    | .num m => m
    | .null => .fin 0
    | .undef => .nan
    | .bool b => .fin (if b then 1 else 0)
  if jsIsFinite n then n else .fin 0

/-- Source `safeInt(val)`: `parseInt` for strings, `Number` coercion otherwise, then
`Math.max(0, Math.floor(n))`, with non-finite values replaced by `0`. -/
def safeInt (v : JSVal) : JSNum :=
  let n : JSNum :=
    match v with
    | .str _ pi => pi
    | .num m => m
    | .null => .fin 0
    | .undef => .nan
    | .bool b => .fin (if b then 1 else 0)
  if jsIsFinite n then
    match n with
    | .fin q => .fin (max 0 (⌊q⌋ : ℚ))
    | m => m
  else .fin 0

/-- A raw backend row as consumed by `normalizeSummary`'s `map` helper. -/
structure RawRow where
  bucket : JSVal
  weighted_pct : JSVal
  avg_pct : JSVal
  trades : JSVal
  deriving DecidableEq

/-- A normalized summary row. -/
structure NormRow where
  bucket : JSVal
  weighted_pct : JSNum
  avg_pct : JSNum
  trades : JSNum
  deriving DecidableEq

/-- The `map` helper inside `normalizeSummary` (`(arr ?? []).map ...`). -/
def mapRows (arr : Option (List RawRow)) : List NormRow :=
  (arr.getD []).map fun x =>
    { bucket := x.bucket,
      weighted_pct := safeNumber x.weighted_pct,
      avg_pct := safeNumber x.avg_pct,
      trades := safeInt x.trades }

/-- The raw summary payload (`s` may itself be null/undefined). -/
structure RawSummary where
  pnl_by_year : Option (List RawRow)
  pnl_by_timeframe : Option (List RawRow)
  pnl_by_strategy : Option (List RawRow)

/-- Normalized summary shape. -/
structure NormSummary where
  pnl_by_year : List NormRow
  pnl_by_timeframe : List NormRow
  pnl_by_strategy : List NormRow

/-- Source `normalizeSummary(s)`. -/
def normalizeSummary (s : Option RawSummary) : NormSummary :=
  { pnl_by_year := mapRows (s.bind (·.pnl_by_year)),
    pnl_by_timeframe := mapRows (s.bind (·.pnl_by_timeframe)),
    pnl_by_strategy := mapRows (s.bind (·.pnl_by_strategy)) }

/-- Nullish coalescing on JS values: `a ?? b`. -/
def jsCoalesce (a b : JSVal) : JSVal :=
  match a with
  | .null => b
  | .undef => b
  | v => v

/-- A raw top-stocks item as consumed by `normalizeTopStocks`. -/
structure RawTopStock where
  stock : JSVal
  ticker : JSVal
  symbol : JSVal
  time : JSVal
  date : JSVal
  period : JSVal
  timeframe : JSVal
  tf : JSVal
  strategy : JSVal
  weighted_pct : JSVal
  avg_pct : JSVal
  trades : JSVal

/-- A normalized top-stocks row. -/
structure NormTopStock where
  stock : JSVal
  time : JSVal
  timeframe : JSVal
  strategy : JSVal
  weighted_pct : JSNum
  avg_pct : JSNum
  trades : JSNum

/-- Source `normalizeTopStocks(t)` applied to the item list (`t?.items ?? t ?? []`). -/
def normalizeTopStocks (items : Option (List RawTopStock)) : List NormTopStock :=
  (items.getD []).map fun x =>
    { stock := jsCoalesce x.stock (jsCoalesce x.ticker x.symbol),
      time := jsCoalesce x.time (jsCoalesce x.date x.period),
      timeframe := jsCoalesce x.timeframe x.tf,
      strategy := x.strategy,
      weighted_pct := safeNumber x.weighted_pct,
      avg_pct := safeNumber x.avg_pct,
      trades := safeInt x.trades }

/-! ## Results aggregation (weighted vs. average P&L) -/

/-- Modelled from the spec: a `ResultRecord` as the Results Aggregator consumes
it — the aggregator itself is server-side code absent from `src/`; per the
spec each closed trade contributes its P&L amount and its notional. -/
structure ResultRecord where
  trade_pnl_amount : ℚ
  trade_notional : ℚ

/-- Modelled from the spec: Weighted P&L % = Σ(trade_pnl_amount) / Σ(trade_notional) × 100. -/
def weightedPnlPct (records : List ResultRecord) : ℚ :=
  ((records.map (·.trade_pnl_amount)).sum / (records.map (·.trade_notional)).sum) * 100

/-- Modelled from the spec: Avg P&L % per trade = arithmetic mean of each
trade's own percent return. -/
def avgPnlPct (records : List ResultRecord) : ℚ :=
  (records.map (fun r => r.trade_pnl_amount / r.trade_notional * 100)).sum / records.length

/-! ## Characterization lemmas for the polling tick -/

section TickLemmas

variable (st : SimStatus) (tr : TrackerState) (sess : SessionState)
variable (p lastP : ProgressData) (sdOpt : Option StateData) (now lastT : ℤ)

/-- Lemma: `deriveStep` never touches the smoothed rate. -/
lemma deriveStep_rate (pOpt : Option ProgressData) :
    (deriveStep st sess pOpt sdOpt).1.rate = st.rate := by
  simp only [deriveStep]
  split <;> split <;> split <;> rfl

/-- When the progress snapshot carries no server-side ETA fields, `deriveStep`
preserves `eta_seconds` and `estimated_finish_iso`. -/
lemma deriveStep_eta (pOpt : Option ProgressData)
    (hfin : pOpt.bind (·.estimated_finish_iso) = none)
    (hsec : pOpt.bind (·.estimated_finish_seconds) = none) :
    (deriveStep st sess pOpt sdOpt).1.eta_seconds = st.eta_seconds ∧
    (deriveStep st sess pOpt sdOpt).1.estimated_finish_iso = st.estimated_finish_iso := by
  simp only [deriveStep, hfin, hsec]
  split <;> exact ⟨rfl, rfl⟩

/-- Lemma: `deriveStep` publishes `Math.round` of the first available raw percent. -/
lemma deriveStep_percent (pOpt : Option ProgressData) :
    (deriveStep st sess pOpt sdOpt).1.progress_percent =
      mathRound ((((pOpt.bind (·.progress_percent)).orElse fun _ =>
        (pOpt.bind (·.progress)).orElse fun _ =>
        (sdOpt.bind (·.progress_percent)).orElse fun _ =>
        (sdOpt.bind (·.progress))).getD 0)) := by
  simp only [deriveStep]
  split <;> split <;> split <;> rfl

/-- Running-branch characterization of `etaStep` when the gate publishes. -/
lemma etaStep_publish
    (hg : etaGuard (some p) = true)
    (hlp : tr.lastProgressData = some lastP)
    (hlt : tr.lastPollTime = some lastT) (hlt0 : ¬ lastT = 0)
    (hpos : simSecondsPerTick p lastP > 0 ∧ wallSecondsPerTick now lastT > 0)
    (hsr : remainingSimSeconds p > 0 ∧
      smoothedRateOf st.rate (simSecondsPerTick p lastP / wallSecondsPerTick now lastT) > 0)
    (hgate : (shouldPublishByTime tr.lastEtaPublishAtMs now
      || shouldPublishByDelta tr.lastEtaPublishedSeconds
        (mathRound (remainingSimSeconds p /
          smoothedRateOf st.rate (simSecondsPerTick p lastP / wallSecondsPerTick now lastT)))) = true) :
    etaStep st tr sess (some p) now =
      (let sr := smoothedRateOf st.rate (simSecondsPerTick p lastP / wallSecondsPerTick now lastT)
       let ne := mathRound (remainingSimSeconds p / sr)
       ({ st with rate := some sr, eta_seconds := some (ne : ℚ),
                  estimated_finish_iso := some (now + ne * 1000) },
        { tr with lastProgressData := some p, lastPollTime := some now,
                  lastEtaPublishAtMs := some now, lastEtaPublishedSeconds := some ne },
        { sess with etaCache :=
            writeEtaCache now (some (ne : ℚ)) (some (now + ne * 1000)) (some sr) })) := by
  simp only [etaStep, hg, hlp, hlt]
  rw [if_neg hlt0, if_pos hpos, if_pos hsr, if_pos hgate]

/-- Running-branch characterization of `etaStep` when the gate blocks:
the UI-facing ETA fields and the publish bookkeeping are untouched, only the
rate, the last-poll bookkeeping and the internal cache move. -/
lemma etaStep_noPublish
    (hg : etaGuard (some p) = true)
    (hlp : tr.lastProgressData = some lastP)
    (hlt : tr.lastPollTime = some lastT) (hlt0 : ¬ lastT = 0)
    (hpos : simSecondsPerTick p lastP > 0 ∧ wallSecondsPerTick now lastT > 0)
    (hsr : remainingSimSeconds p > 0 ∧
      smoothedRateOf st.rate (simSecondsPerTick p lastP / wallSecondsPerTick now lastT) > 0)
    (hgate : (shouldPublishByTime tr.lastEtaPublishAtMs now
      || shouldPublishByDelta tr.lastEtaPublishedSeconds
        (mathRound (remainingSimSeconds p /
          smoothedRateOf st.rate (simSecondsPerTick p lastP / wallSecondsPerTick now lastT)))) = false) :
    etaStep st tr sess (some p) now =
      (let sr := smoothedRateOf st.rate (simSecondsPerTick p lastP / wallSecondsPerTick now lastT)
       let ne := mathRound (remainingSimSeconds p / sr)
       ({ st with rate := some sr },
        { tr with lastProgressData := some p, lastPollTime := some now },
        { sess with etaCache :=
            writeEtaCache now (some (ne : ℚ)) (some (now + ne * 1000)) (some sr) })) := by
  simp only [etaStep, hg, hlp, hlt]
  rw [if_neg hlt0, if_pos hpos, if_pos hsr, if_neg (by simp [hgate])]

/-- Running-branch characterization of `etaStep` when the remaining simulated
time or the smoothed rate is not positive: ETA is forced to `0`. -/
lemma etaStep_zeroEta
    (hg : etaGuard (some p) = true)
    (hlp : tr.lastProgressData = some lastP)
    (hlt : tr.lastPollTime = some lastT) (hlt0 : ¬ lastT = 0)
    (hpos : simSecondsPerTick p lastP > 0 ∧ wallSecondsPerTick now lastT > 0)
    (hsr : ¬ (remainingSimSeconds p > 0 ∧
      smoothedRateOf st.rate (simSecondsPerTick p lastP / wallSecondsPerTick now lastT) > 0)) :
    etaStep st tr sess (some p) now =
      (let sr := smoothedRateOf st.rate (simSecondsPerTick p lastP / wallSecondsPerTick now lastT)
       ({ st with rate := some sr, eta_seconds := some 0, estimated_finish_iso := some now },
        { tr with lastProgressData := some p, lastPollTime := some now },
        sess)) := by
  simp only [etaStep, hg, hlp, hlt]
  rw [if_neg hlt0, if_pos hpos, if_neg hsr]

/-- Running-branch characterization of `etaStep` when one of the deltas is not
strictly positive: nothing moves except the last-poll bookkeeping. -/
lemma etaStep_noDelta
    (hg : etaGuard (some p) = true)
    (hlp : tr.lastProgressData = some lastP)
    (hlt : tr.lastPollTime = some lastT) (hlt0 : ¬ lastT = 0)
    (hpos : ¬ (simSecondsPerTick p lastP > 0 ∧ wallSecondsPerTick now lastT > 0)) :
    etaStep st tr sess (some p) now =
      (st, { tr with lastProgressData := some p, lastPollTime := some now }, sess) := by
  simp only [etaStep, hg, hlp, hlt]
  rw [if_neg hlt0, if_neg hpos]

/-- Idle-branch characterization of `etaStep`: the tracker is cleared and the
ETA fields come from the cache when it is fresh, else become `null`. -/
lemma etaStep_idle (pOpt : Option ProgressData) (hg : etaGuard pOpt = false) :
    etaStep st tr sess pOpt now =
      (match readEtaCache now sess.etaCache with
       | some cached =>
         ({ st with eta_seconds := cached.etaSeconds,
                    estimated_finish_iso := cached.finishIso, rate := cached.rate },
          { lastProgressData := none, lastPollTime := none,
            lastEtaPublishAtMs := none, lastEtaPublishedSeconds := none }, sess)
       | none =>
         ({ st with eta_seconds := none, estimated_finish_iso := none },
          { lastProgressData := none, lastPollTime := none,
            lastEtaPublishAtMs := none, lastEtaPublishedSeconds := none }, sess)) := by
  match pOpt with
  | none => simp only [etaStep]
  | some p => simp only [etaStep, hg]

end TickLemmas

/-- C1: while the simulation is running (valid consecutive snapshots, positive
deltas, positive remaining time and rate, no server-supplied ETA), the newly
recomputed ETA is published into the user-facing `eta_seconds` /
`estimated_finish_iso` fields if and only if at least 30 wall-clock seconds
have elapsed since the last publish or the new ETA differs from the last
published ETA by at least 60 seconds; otherwise the previously published ETA
remains the visible value. -/
theorem eta_publish_gate_iff
    (s : PollState) (p lastP : ProgressData) (sdOpt : Option StateData) (now lastT : ℤ)
    (hg : etaGuard (some p) = true)
    (hlp : s.tracker.lastProgressData = some lastP)
    (hlt : s.tracker.lastPollTime = some lastT) (hlt0 : ¬ lastT = 0)
    (hpos : simSecondsPerTick p lastP > 0 ∧ wallSecondsPerTick now lastT > 0)
    (hsr : remainingSimSeconds p > 0 ∧
      smoothedRateOf s.status.rate
        (simSecondsPerTick p lastP / wallSecondsPerTick now lastT) > 0)
    (hfin : p.estimated_finish_iso = none)
    (hsec : p.estimated_finish_seconds = none) :
    ((shouldPublishByTime s.tracker.lastEtaPublishAtMs now
        || shouldPublishByDelta s.tracker.lastEtaPublishedSeconds
          (mathRound (remainingSimSeconds p / smoothedRateOf s.status.rate
            (simSecondsPerTick p lastP / wallSecondsPerTick now lastT)))) = true →
      (pollTick s (some p) sdOpt now).status.eta_seconds =
        some ((mathRound (remainingSimSeconds p / smoothedRateOf s.status.rate
          (simSecondsPerTick p lastP / wallSecondsPerTick now lastT)) : ℤ) : ℚ) ∧
      (pollTick s (some p) sdOpt now).status.estimated_finish_iso =
        some (now + mathRound (remainingSimSeconds p / smoothedRateOf s.status.rate
          (simSecondsPerTick p lastP / wallSecondsPerTick now lastT)) * 1000) ∧
      (pollTick s (some p) sdOpt now).tracker.lastEtaPublishAtMs = some now ∧
      (pollTick s (some p) sdOpt now).tracker.lastEtaPublishedSeconds =
        some (mathRound (remainingSimSeconds p / smoothedRateOf s.status.rate
          (simSecondsPerTick p lastP / wallSecondsPerTick now lastT)))) ∧
    ((shouldPublishByTime s.tracker.lastEtaPublishAtMs now
        || shouldPublishByDelta s.tracker.lastEtaPublishedSeconds
          (mathRound (remainingSimSeconds p / smoothedRateOf s.status.rate
            (simSecondsPerTick p lastP / wallSecondsPerTick now lastT)))) = false →
      (pollTick s (some p) sdOpt now).status.eta_seconds = s.status.eta_seconds ∧
      (pollTick s (some p) sdOpt now).status.estimated_finish_iso =
        s.status.estimated_finish_iso ∧
      (pollTick s (some p) sdOpt now).tracker.lastEtaPublishAtMs =
        s.tracker.lastEtaPublishAtMs ∧
      (pollTick s (some p) sdOpt now).tracker.lastEtaPublishedSeconds =
        s.tracker.lastEtaPublishedSeconds) := by
  have hfin' : (some p).bind (·.estimated_finish_iso) = none := by
    simpa using hfin
  have hsec' : (some p).bind (·.estimated_finish_seconds) = none := by
    simpa using hsec
  constructor
  · intro hgate
    have h := etaStep_publish s.status s.tracker s.sess p lastP now lastT
      hg hlp hlt hlt0 hpos hsr hgate
    simp only [pollTick, h]
    exact ⟨(deriveStep_eta _ _ _ _ hfin' hsec').1.trans rfl,
      (deriveStep_eta _ _ _ _ hfin' hsec').2.trans rfl, trivial, trivial⟩
  · intro hgate
    have h := etaStep_noPublish s.status s.tracker s.sess p lastP now lastT
      hg hlp hlt hlt0 hpos hsr hgate
    simp only [pollTick, h]
    exact ⟨(deriveStep_eta _ _ _ _ hfin' hsec').1.trans rfl,
      (deriveStep_eta _ _ _ _ hfin' hsec').2.trans rfl, trivial, trivial⟩

/-- Helper: under the running guard with positive deltas, the rate after one
tick is the EMA-smoothed rate, regardless of how the publish gate resolves. -/
lemma pollTick_rate_eq
    (s : PollState) (p lastP : ProgressData) (sdOpt : Option StateData) (now lastT : ℤ)
    (hg : etaGuard (some p) = true)
    (hlp : s.tracker.lastProgressData = some lastP)
    (hlt : s.tracker.lastPollTime = some lastT) (hlt0 : ¬ lastT = 0)
    (hpos : simSecondsPerTick p lastP > 0 ∧ wallSecondsPerTick now lastT > 0) :
    (pollTick s (some p) sdOpt now).status.rate =
      some (smoothedRateOf s.status.rate
        (simSecondsPerTick p lastP / wallSecondsPerTick now lastT)) := by
  by_cases hsr : remainingSimSeconds p > 0 ∧
      smoothedRateOf s.status.rate
        (simSecondsPerTick p lastP / wallSecondsPerTick now lastT) > 0
  · cases hgate : (shouldPublishByTime s.tracker.lastEtaPublishAtMs now
        || shouldPublishByDelta s.tracker.lastEtaPublishedSeconds
          (mathRound (remainingSimSeconds p / smoothedRateOf s.status.rate
            (simSecondsPerTick p lastP / wallSecondsPerTick now lastT)))) with
    | false =>
      have h := etaStep_noPublish s.status s.tracker s.sess p lastP now lastT
        hg hlp hlt hlt0 hpos hsr hgate
      simp only [pollTick, h]
      rw [deriveStep_rate]
    | true =>
      have h := etaStep_publish s.status s.tracker s.sess p lastP now lastT
        hg hlp hlt hlt0 hpos hsr hgate
      simp only [pollTick, h]
      rw [deriveStep_rate]
  · have h := etaStep_zeroEta s.status s.tracker s.sess p lastP now lastT
      hg hlp hlt hlt0 hpos hsr
    simp only [pollTick, h]
    rw [deriveStep_rate]

/-- C3: on a running polling step with strictly positive simulated and wall
deltas, the published throughput estimate is the EMA
`new_rate = 0.1 * current_ratio + 0.9 * previous_rate` of
`simulated_seconds_advanced / wall_seconds_elapsed`, and equals the current
ratio when there is no previous rate. -/
theorem rate_ema_correct
    (s : PollState) (p lastP : ProgressData) (sdOpt : Option StateData) (now lastT : ℤ)
    (hg : etaGuard (some p) = true)
    (hlp : s.tracker.lastProgressData = some lastP)
    (hlt : s.tracker.lastPollTime = some lastT) (hlt0 : ¬ lastT = 0)
    (hpos : simSecondsPerTick p lastP > 0 ∧ wallSecondsPerTick now lastT > 0) :
    (s.status.rate = none →
      (pollTick s (some p) sdOpt now).status.rate =
        some (simSecondsPerTick p lastP / wallSecondsPerTick now lastT)) ∧
    (∀ r : ℚ, s.status.rate = some r → r ≠ 0 →
      (pollTick s (some p) sdOpt now).status.rate =
        some ((1/10) * (simSecondsPerTick p lastP / wallSecondsPerTick now lastT)
          + (9/10) * r)) := by
  have hr := pollTick_rate_eq s p lastP sdOpt now lastT hg hlp hlt hlt0 hpos
  constructor
  · intro hnone
    rw [hr, hnone]
    simp [smoothedRateOf, truthyQ]
  · intro r hsome hr0
    rw [hr, hsome]
    have ht : truthyQ (some r) = true := by
      simp [truthyQ, hr0]
    simp only [smoothedRateOf, ht, if_true, Option.getD_some, etaRateSmoother]
    norm_num

/-- C10: the ETA computation updates the smoothed rate only when both the
simulated-time delta and the wall-clock delta are strictly positive; it divides
by the smoothed rate only when the remaining simulated seconds and the rate are
both strictly positive, and the resulting `eta_seconds` is then non-negative;
when the remaining simulated seconds (or the rate) is not positive the ETA is
set to `0`. -/
theorem eta_computation_safety
    (s : PollState) (p lastP : ProgressData) (sdOpt : Option StateData) (now lastT : ℤ)
    (hg : etaGuard (some p) = true)
    (hlp : s.tracker.lastProgressData = some lastP)
    (hlt : s.tracker.lastPollTime = some lastT) (hlt0 : ¬ lastT = 0)
    (hfin : p.estimated_finish_iso = none)
    (hsec : p.estimated_finish_seconds = none) :
    (¬ (simSecondsPerTick p lastP > 0 ∧ wallSecondsPerTick now lastT > 0) →
      (pollTick s (some p) sdOpt now).status.rate = s.status.rate ∧
      (pollTick s (some p) sdOpt now).status.eta_seconds = s.status.eta_seconds) ∧
    ((simSecondsPerTick p lastP > 0 ∧ wallSecondsPerTick now lastT > 0) →
      (pollTick s (some p) sdOpt now).status.rate =
        some (smoothedRateOf s.status.rate
          (simSecondsPerTick p lastP / wallSecondsPerTick now lastT)) ∧
      ((remainingSimSeconds p > 0 ∧
          smoothedRateOf s.status.rate
            (simSecondsPerTick p lastP / wallSecondsPerTick now lastT) > 0) →
        0 ≤ mathRound (remainingSimSeconds p / smoothedRateOf s.status.rate
          (simSecondsPerTick p lastP / wallSecondsPerTick now lastT))) ∧
      (¬ (remainingSimSeconds p > 0 ∧
          smoothedRateOf s.status.rate
            (simSecondsPerTick p lastP / wallSecondsPerTick now lastT) > 0) →
        (pollTick s (some p) sdOpt now).status.eta_seconds = some 0)) := by
  have hfin' : (some p).bind (·.estimated_finish_iso) = none := by
    simpa using hfin
  have hsec' : (some p).bind (·.estimated_finish_seconds) = none := by
    simpa using hsec
  refine ⟨?_, ?_⟩
  · intro hpos
    have h := etaStep_noDelta s.status s.tracker s.sess p lastP now lastT
      hg hlp hlt hlt0 hpos
    simp only [pollTick, h]
    exact ⟨deriveStep_rate _ _ _ _, (deriveStep_eta _ _ _ _ hfin' hsec').1⟩
  · intro hpos
    refine ⟨pollTick_rate_eq s p lastP sdOpt now lastT hg hlp hlt hlt0 hpos, ?_, ?_⟩
    · intro hsr
      have hq : (0 : ℚ) < remainingSimSeconds p / smoothedRateOf s.status.rate
          (simSecondsPerTick p lastP / wallSecondsPerTick now lastT) :=
        div_pos hsr.1 hsr.2
      have : ((0 : ℤ) : ℚ) ≤ remainingSimSeconds p / smoothedRateOf s.status.rate
          (simSecondsPerTick p lastP / wallSecondsPerTick now lastT) + 1/2 := by
        push_cast
        linarith
      exact Int.le_floor.mpr this
    · intro hsr
      have h := etaStep_zeroEta s.status s.tracker s.sess p lastP now lastT
        hg hlp hlt hlt0 hpos hsr
      simp only [pollTick, h]
      exact (deriveStep_eta _ _ _ _ hfin' hsec').1.trans rfl

/-- C6: when the simulation is not running (and the snapshot carries no
server-side ETA), the last published ETA is served from the session cache while
that cache is at most `ETA_TTL_MS = 60` seconds old; a stale or absent cache
makes the ETA report unknown (`null`). -/
theorem eta_retained_within_ttl
    (s : PollState) (pOpt : Option ProgressData) (sdOpt : Option StateData) (now : ℤ)
    (hg : etaGuard pOpt = false)
    (hfin : pOpt.bind (·.estimated_finish_iso) = none)
    (hsec : pOpt.bind (·.estimated_finish_seconds) = none) :
    (∀ c : EtaCacheEntry, readEtaCache now s.sess.etaCache = some c →
      (pollTick s pOpt sdOpt now).status.eta_seconds = c.etaSeconds ∧
      (pollTick s pOpt sdOpt now).status.estimated_finish_iso = c.finishIso) ∧
    (readEtaCache now s.sess.etaCache = none →
      (pollTick s pOpt sdOpt now).status.eta_seconds = none ∧
      (pollTick s pOpt sdOpt now).status.estimated_finish_iso = none) ∧
    (∀ e : EtaCacheEntry, ¬ e.whenMs = 0 →
      (readEtaCache now (some e) = some e ↔ now - e.whenMs ≤ ETA_TTL_MS)) := by
  have h := etaStep_idle s.status s.tracker s.sess now pOpt hg
  refine ⟨?_, ?_, ?_⟩
  · intro c hc
    rw [hc] at h
    simp only [pollTick, h]
    exact ⟨(deriveStep_eta _ _ _ _ hfin hsec).1.trans rfl,
      (deriveStep_eta _ _ _ _ hfin hsec).2.trans rfl⟩
  · intro hc
    rw [hc] at h
    simp only [pollTick, h]
    exact ⟨(deriveStep_eta _ _ _ _ hfin hsec).1.trans rfl,
      (deriveStep_eta _ _ _ _ hfin hsec).2.trans rfl⟩
  · intro e he
    simp only [readEtaCache]
    constructor
    · intro hr
      by_contra hstale
      rw [if_pos (Or.inr (by omega))] at hr
      exact Option.noConfusion hr
    · intro hfresh
      rw [if_neg]
      push_neg
      exact ⟨he, by omega⟩

/-- The reset polling loop returns the first terminal response it sees. -/
lemma resetPollLoop_eq_first_terminal (responses : ℕ → Option ResetStatusResp) :
    ∀ (i fuel k : ℕ) (last : Option ResetStatusResp), i < fuel →
      isTerminalResp (responses (k + i)) = true →
      (∀ j, j < i → isTerminalResp (responses (k + j)) = false) →
      resetPollLoop responses fuel k last = responses (k + i) := by
  intro i
  induction i with
  | zero =>
    intro fuel k last hfuel hterm _
    match fuel, hfuel with
    | f + 1, _ =>
      simp only [resetPollLoop]
      simp only [Nat.add_zero] at hterm
      simp [hterm]
  | succ i ih =>
    intro fuel k last hfuel hterm hmin
    match fuel, hfuel with
    | f + 1, hf =>
      have h0 : isTerminalResp (responses k) = false := by
        simpa using hmin 0 (Nat.succ_pos i)
      simp only [resetPollLoop, h0, Bool.false_eq_true, if_false]
      have hterm' : isTerminalResp (responses (k + 1 + i)) = true := by
        rw [show k + 1 + i = k + (i + 1) by omega]
        exact hterm
      have hmin' : ∀ j, j < i → isTerminalResp (responses (k + 1 + j)) = false := by
        intro j hj
        rw [show k + 1 + j = k + (j + 1) by omega]
        exact hmin (j + 1) (by omega)
      have := ih f (k + 1) (responses k) (Nat.lt_of_succ_lt_succ hf) hterm' hmin'
      rw [this, show k + 1 + i = k + (i + 1) by omega]

/-- C4: the client reset is asynchronous and terminal-status driven — it polls
the reset-job status until the first terminal `completed`/`failed` response
(or the poll budget runs out), and reports success exactly when the polled
terminal status is `completed`. -/
theorem reset_terminal_status_driven
    (s : PollState) (responses : ℕ → Option ResetStatusResp) :
    ((resetRun s responses).2.ok = true ↔
      ∃ r : ResetStatusResp,
        resetPollLoop responses RESET_MAX_POLLS 0 none = some r ∧
        r.status = some "completed") ∧
    (∀ i, i < RESET_MAX_POLLS → isTerminalResp (responses i) = true →
      (∀ j, j < i → isTerminalResp (responses j) = false) →
      resetPollLoop responses RESET_MAX_POLLS 0 none = responses i) := by
  constructor
  · simp only [resetRun]
    cases hloop : resetPollLoop responses RESET_MAX_POLLS 0 none with
    | none => simp
    | some r =>
      by_cases hst : r.status = some "completed"
      · simp [hst]
      · simp [hst]
  · intro i hi hterm hmin
    have := resetPollLoop_eq_first_terminal responses i RESET_MAX_POLLS 0 none hi
      (by simpa using hterm) (fun j hj => by simpa using hmin j hj)
    simpa using this

/-- C8: when the reset job does not reach `completed` (it failed, timed out, or
the status endpoint was unreachable), the client reset returns `ok = false`
and leaves the status object, the session caches and the ETA tracking state
untouched; they are cleared and reinitialized to the idle defaults exactly in
the confirmed-completion case. -/
theorem reset_failure_leaves_state
    (s : PollState) (responses : ℕ → Option ResetStatusResp) :
    ((resetRun s responses).2.ok = false → (resetRun s responses).1 = s) ∧
    ((resetRun s responses).2.ok = true →
      (resetRun s responses).1 =
        { status := idleStatus,
          tracker := { s.tracker with lastProgressData := none, lastPollTime := none },
          sess := { etaCache := none, simCache := some idleStatus,
                    importCacheSet := false } }) := by
  simp only [resetRun]
  cases hloop : resetPollLoop responses RESET_MAX_POLLS 0 none with
  | none => simp
  | some r =>
    by_cases hst : r.status = some "completed"
    · simp [hst]
    · simp [hst]

/-- C7: the capital-weighted P&L percentage `Σ pnl / Σ notional × 100` is
invariant under every permutation of the aggregated records, and differs from
the arithmetic mean of the per-trade percent returns. -/
theorem weighted_pnl_perm_invariant :
    (∀ l l' : List ResultRecord, l.Perm l' → weightedPnlPct l = weightedPnlPct l') ∧
    weightedPnlPct [⟨10, 100⟩, ⟨5, 10⟩] ≠ avgPnlPct [⟨10, 100⟩, ⟨5, 10⟩] := by
  constructor
  · intro l l' h
    unfold weightedPnlPct
    rw [(h.map (·.trade_pnl_amount)).sum_eq, (h.map (·.trade_notional)).sum_eq]
  · simp only [weightedPnlPct, avgPnlPct, List.map_cons, List.map_nil, List.sum_cons,
      List.sum_nil, List.length_cons, List.length_nil]
    norm_num

/-- Lemma: `safeNumber` always yields a finite number. -/
lemma safeNumber_isFin (v : JSVal) : ∃ q : ℚ, safeNumber v = .fin q := by
  cases v with
  | num n => cases n <;> exact ⟨_, rfl⟩
  | str pf pi => cases pf <;> exact ⟨_, rfl⟩
  | null => exact ⟨0, rfl⟩
  | undef => exact ⟨0, rfl⟩
  | bool b => exact ⟨_, rfl⟩

/-- Lemma: `safeInt` always yields a finite non-negative integer. -/
lemma safeInt_nonneg (v : JSVal) : ∃ k : ℤ, 0 ≤ k ∧ safeInt v = .fin (k : ℚ) := by
  have hfin : ∀ q : ℚ, ∃ k : ℤ, 0 ≤ k ∧
      JSNum.fin (max 0 ((⌊q⌋ : ℤ) : ℚ)) = .fin (k : ℚ) := by
    intro q
    refine ⟨max 0 ⌊q⌋, le_max_left 0 _, congrArg JSNum.fin ?_⟩
    push_cast
    rfl
  cases v with
  | num n =>
    cases n with
    | fin q => exact hfin q
    | nan => exact ⟨0, le_refl 0, rfl⟩
    | posInf => exact ⟨0, le_refl 0, rfl⟩
    | negInf => exact ⟨0, le_refl 0, rfl⟩
  | str pf pi =>
    cases pi with
    | fin q => exact hfin q
    | nan => exact ⟨0, le_refl 0, rfl⟩
    | posInf => exact ⟨0, le_refl 0, rfl⟩
    | negInf => exact ⟨0, le_refl 0, rfl⟩
  | null => exact hfin 0
  | undef => exact ⟨0, le_refl 0, rfl⟩
  | bool b => cases b <;> exact hfin _

/-- C9: for every backend results payload — whatever mixture of missing, null,
string or non-numeric fields — every normalized row carries finite
`weighted_pct` and `avg_pct` values and a non-negative integer `trades`. -/
theorem normalize_results_safe
    (s : Option RawSummary) (items : Option (List RawTopStock)) :
    (∀ r : NormRow,
      (r ∈ (normalizeSummary s).pnl_by_year ∨
       r ∈ (normalizeSummary s).pnl_by_timeframe ∨
       r ∈ (normalizeSummary s).pnl_by_strategy) →
      (∃ q, r.weighted_pct = .fin q) ∧ (∃ q, r.avg_pct = .fin q) ∧
      (∃ k : ℤ, 0 ≤ k ∧ r.trades = .fin (k : ℚ))) ∧
    (∀ t : NormTopStock, t ∈ normalizeTopStocks items →
      (∃ q, t.weighted_pct = .fin q) ∧ (∃ q, t.avg_pct = .fin q) ∧
      (∃ k : ℤ, 0 ≤ k ∧ t.trades = .fin (k : ℚ))) := by
  constructor
  · rintro r (hr | hr | hr) <;>
    · simp only [normalizeSummary, mapRows, List.mem_map] at hr
      obtain ⟨x, -, rfl⟩ := hr
      exact ⟨safeNumber_isFin _, safeNumber_isFin _, safeInt_nonneg _⟩
  · intro t ht
    simp only [normalizeTopStocks, List.mem_map] at ht
    obtain ⟨x, -, rfl⟩ := ht
    exact ⟨safeNumber_isFin _, safeNumber_isFin _, safeInt_nonneg _⟩

/-- JavaScript `Math.round` of an integer value is that integer. -/
lemma mathRound_intCast (n : ℤ) : mathRound ((n : ℚ)) = n := by
  unfold mathRound
  rw [Int.floor_int_add]
  norm_num

/-- Evaluation `Math.round 0 = 0`. -/
lemma mathRound_zero : mathRound 0 = 0 := by
  have := mathRound_intCast 0
  simpa using this

/-- First running tick: with no previous snapshot stored, the ETA section only
records the snapshot and poll time. -/
lemma etaStep_firstTick (st : SimStatus) (tr : TrackerState) (sess : SessionState)
    (p : ProgressData) (now : ℤ)
    (hg : etaGuard (some p) = true)
    (hlp : tr.lastProgressData = none) :
    etaStep st tr sess (some p) now =
      (st, { tr with lastProgressData := some p, lastPollTime := some now }, sess) := by
  simp only [etaStep, hg, hlp]

/-- The raw percent the polling tick derives: first available of the progress
snapshot's `progress_percent`/`progress`, then the state snapshot's, default 0. -/
def rawPercent (pOpt : Option ProgressData) (sdOpt : Option StateData) : ℚ :=
  ((pOpt.bind (·.progress_percent)).orElse fun _ =>
   (pOpt.bind (·.progress)).orElse fun _ =>
   (sdOpt.bind (·.progress_percent)).orElse fun _ =>
   (sdOpt.bind (·.progress))).getD 0

/-- The published percent after one polling tick is `Math.round` of the raw
percent, with no clamping. -/
lemma pollTick_percent (s : PollState) (pOpt : Option ProgressData)
    (sdOpt : Option StateData) (now : ℤ) :
    (pollTick s pOpt sdOpt now).status.progress_percent =
      mathRound (rawPercent pOpt sdOpt) := by
  simp only [pollTick]
  rw [deriveStep_percent]
  rfl

/-- The initial store state: idle status, empty tracker, empty session caches. -/
def initState : PollState :=
  { status := idleStatus,
    tracker := { lastProgressData := none, lastPollTime := none,
                 lastEtaPublishAtMs := none, lastEtaPublishedSeconds := none },
    sess := { etaCache := none, simCache := none, importCacheSet := false } }

/-- A progress snapshot claiming 150% completion. -/
def overPercentSnapshot : ProgressData :=
  { sim_time_epoch := none, max_epoch := none, state := none,
    progress_percent := some 150, progress := none, total_buys := none,
    total_sells := none, sim_time_iso := none, current_runner_info := none,
    estimated_finish_iso := none, estimated_finish_seconds := none, timeframes := none }

/-- C5 counterexample: the client publishes the raw percent rounded but NOT
clamped — a backend payload with `progress_percent = 150` is published as
`150`, outside `[0, 100]`. -/
theorem progress_percent_not_clamped :
    (pollTick initState (some overPercentSnapshot) none 1000).status.progress_percent = 150 ∧
    ¬ ((pollTick initState (some overPercentSnapshot) none 1000).status.progress_percent ≤ 100) := by
  have h := pollTick_percent initState (some overPercentSnapshot) none 1000
  have hraw : rawPercent (some overPercentSnapshot) none = 150 := rfl
  rw [hraw] at h
  have h150 : mathRound (150 : ℚ) = 150 := by
    have := mathRound_intCast 150
    simpa using this
  rw [h150] at h
  exact ⟨h, by rw [h]; omega⟩

/-- C5 amended: the percent-complete published by the polling tick equals
`Math.round` of the first available raw percent (default `0`), with no
clamping; it lies within `[0, 100]` whenever the raw percent does. -/
theorem progress_percent_round_passthrough
    (s : PollState) (pOpt : Option ProgressData) (sdOpt : Option StateData) (now : ℤ) :
    (pollTick s pOpt sdOpt now).status.progress_percent =
      mathRound (rawPercent pOpt sdOpt) ∧
    (0 ≤ rawPercent pOpt sdOpt → rawPercent pOpt sdOpt ≤ 100 →
      0 ≤ (pollTick s pOpt sdOpt now).status.progress_percent ∧
      (pollTick s pOpt sdOpt now).status.progress_percent ≤ 100) := by
  refine ⟨pollTick_percent s pOpt sdOpt now, ?_⟩
  intro h0 h100
  rw [pollTick_percent s pOpt sdOpt now]
  constructor
  · exact Int.le_floor.mpr (by push_cast; linarith)
  · calc mathRound (rawPercent pOpt sdOpt)
        ≤ ⌊(201/2 : ℚ)⌋ := Int.floor_le_floor (by linarith)
      _ = 100 := by norm_num

/-! ## A concrete constant-rate polling run (for the ETA hysteresis property)

Ticks arrive every 40 wall-seconds (polling slowed, e.g. a throttled tab);
each tick the simulation advanced 40 simulated seconds, so the throughput
rate is a constant 1 simulated second per wall second throughout. -/

/-- Progress snapshot of the k-th tick of the constant-rate run. -/
def crp (k : ℕ) : ProgressData :=
  { sim_time_epoch := some (1000 + 40 * k), max_epoch := some 1000000,
    state := some "running", progress_percent := none, progress := none,
    total_buys := none, total_sells := none, sim_time_iso := none,
    current_runner_info := none, estimated_finish_iso := none,
    estimated_finish_seconds := none, timeframes := none }

/-- Wall-clock time (ms) of the k-th tick of the constant-rate run. -/
def crnow (k : ℕ) : ℤ := 40000 * k

/-- The exact ETA the run computes at tick k: `max_epoch - sim_time_epoch`
at rate 1. -/
def creta (k : ℕ) : ℤ := 999000 - 40 * k

/-- The polling store state after k ticks of the constant-rate run. -/
def crRun : ℕ → PollState
  | 0 => initState
  | k + 1 => pollTick (crRun k) (some (crp (k + 1))) none (crnow (k + 1))

/-- The state invariant of the constant-rate run from tick 2 on. -/
def CrInv (k : ℕ) (s : PollState) : Prop :=
  s.status.rate = some 1 ∧
  s.status.eta_seconds = some ((creta k : ℤ) : ℚ) ∧
  s.tracker.lastProgressData = some (crp k) ∧
  s.tracker.lastPollTime = some (crnow k) ∧
  s.tracker.lastEtaPublishAtMs = some (crnow k) ∧
  s.tracker.lastEtaPublishedSeconds = some (creta k)

lemma crp_simDelta (k : ℕ) : simSecondsPerTick (crp (k + 1)) (crp k) = 40 := by
  unfold simSecondsPerTick crp
  simp only [Option.getD_some]
  push_cast
  ring

lemma crnow_wallDelta (k : ℕ) : wallSecondsPerTick (crnow (k + 1)) (crnow k) = 40 := by
  unfold wallSecondsPerTick crnow
  have : (40000 * ((k : ℤ) + 1) - 40000 * k) = 40000 := by ring
  push_cast
  rw [show (40000 * ((k : ℚ) + 1) - 40000 * k) = 40000 by ring]
  norm_num

lemma crp_guard (k : ℕ) : etaGuard (some (crp (k + 1))) = true := by
  have h1 : (1000 + 40 * ((k : ℚ) + 1)) ≠ 0 := by positivity
  simp [etaGuard, crp, truthyQ]
  exact h1

lemma crp_remaining (k : ℕ) :
    remainingSimSeconds (crp (k + 1)) = ((creta (k + 1) : ℤ) : ℚ) := by
  unfold remainingSimSeconds crp creta
  simp only [Option.getD_some]
  push_cast
  ring

/-- One publish step of the constant-rate run: from any state satisfying the
tick-k bookkeeping (with rate either unset or already 1, and a publish gate
that fires), the next tick publishes the tick-(k+1) ETA. -/
lemma crStep (k : ℕ) (s : PollState) (h1 : 1 ≤ k) (h100 : k + 1 ≤ 100)
    (hrate : s.status.rate = none ∨ s.status.rate = some 1)
    (hlp : s.tracker.lastProgressData = some (crp k))
    (hlt : s.tracker.lastPollTime = some (crnow k))
    (hpub : shouldPublishByTime s.tracker.lastEtaPublishAtMs (crnow (k + 1)) = true) :
    CrInv (k + 1) (pollTick s (some (crp (k + 1))) none (crnow (k + 1))) := by
  have hlt0 : ¬ crnow k = 0 := by
    unfold crnow
    omega
  have hpos : simSecondsPerTick (crp (k + 1)) (crp k) > 0 ∧
      wallSecondsPerTick (crnow (k + 1)) (crnow k) > 0 := by
    rw [crp_simDelta, crnow_wallDelta]
    norm_num
  have hsm : smoothedRateOf s.status.rate
      (simSecondsPerTick (crp (k + 1)) (crp k) /
        wallSecondsPerTick (crnow (k + 1)) (crnow k)) = 1 := by
    rw [crp_simDelta, crnow_wallDelta]
    rcases hrate with h | h <;>
      rw [h] <;>
      simp [smoothedRateOf, truthyQ, etaRateSmoother]
  have hrem : remainingSimSeconds (crp (k + 1)) > 0 := by
    rw [crp_remaining]
    unfold creta
    push_cast
    have : (k : ℚ) + 1 ≤ 100 := by
      exact_mod_cast Nat.cast_le.mpr h100
    linarith
  have hsr : remainingSimSeconds (crp (k + 1)) > 0 ∧
      smoothedRateOf s.status.rate
        (simSecondsPerTick (crp (k + 1)) (crp k) /
          wallSecondsPerTick (crnow (k + 1)) (crnow k)) > 0 := by
    rw [hsm]
    exact ⟨hrem, by norm_num⟩
  have hne : mathRound (remainingSimSeconds (crp (k + 1)) /
      smoothedRateOf s.status.rate
        (simSecondsPerTick (crp (k + 1)) (crp k) /
          wallSecondsPerTick (crnow (k + 1)) (crnow k))) = creta (k + 1) := by
    rw [hsm, div_one, crp_remaining, mathRound_intCast]
  have hgate : (shouldPublishByTime s.tracker.lastEtaPublishAtMs (crnow (k + 1))
      || shouldPublishByDelta s.tracker.lastEtaPublishedSeconds
        (mathRound (remainingSimSeconds (crp (k + 1)) /
          smoothedRateOf s.status.rate
            (simSecondsPerTick (crp (k + 1)) (crp k) /
              wallSecondsPerTick (crnow (k + 1)) (crnow k))))) = true := by
    rw [hpub]
    simp
  have h := etaStep_publish s.status s.tracker s.sess (crp (k + 1)) (crp k)
    (crnow (k + 1)) (crnow k) (crp_guard k) hlp hlt hlt0 hpos hsr hgate
  have hfin' : (some (crp (k + 1))).bind (·.estimated_finish_iso) = none := rfl
  have hsec' : (some (crp (k + 1))).bind (·.estimated_finish_seconds) = none := rfl
  refine ⟨?_, ?_, ?_, ?_, ?_, ?_⟩
  · simp only [pollTick, h]
    rw [deriveStep_rate]
    simp only [hsm]
  · simp only [pollTick, h]
    rw [(deriveStep_eta _ _ _ _ hfin' hsec').1]
    simp only [hne]
  · simp only [pollTick, h]
  · simp only [pollTick, h]
  · simp only [pollTick, h]
  · simp only [pollTick, h]
    simp only [hne]

/-- The first tick of the constant-rate run only records bookkeeping. -/
lemma crRun_one :
    (crRun 1).status.rate = none ∧
    (crRun 1).status.eta_seconds = none ∧
    (crRun 1).tracker.lastProgressData = some (crp 1) ∧
    (crRun 1).tracker.lastPollTime = some (crnow 1) ∧
    (crRun 1).tracker.lastEtaPublishAtMs = none := by
  have hg : etaGuard (some (crp 1)) = true := crp_guard 0
  have h := etaStep_firstTick initState.status initState.tracker initState.sess
    (crp 1) (crnow 1) hg rfl
  have hfin' : (some (crp 1)).bind (·.estimated_finish_iso) = none := rfl
  have hsec' : (some (crp 1)).bind (·.estimated_finish_seconds) = none := rfl
  refine ⟨?_, ?_, ?_, ?_, ?_⟩
  · show (pollTick initState (some (crp 1)) none (crnow 1)).status.rate = none
    simp only [pollTick, h]
    rw [deriveStep_rate]
    rfl
  · show (pollTick initState (some (crp 1)) none (crnow 1)).status.eta_seconds = none
    simp only [pollTick, h]
    rw [(deriveStep_eta _ _ _ _ hfin' hsec').1]
    rfl
  · show (pollTick initState (some (crp 1)) none (crnow 1)).tracker.lastProgressData = _
    simp only [pollTick, h]
  · show (pollTick initState (some (crp 1)) none (crnow 1)).tracker.lastPollTime = _
    simp only [pollTick, h]
  · show (pollTick initState (some (crp 1)) none (crnow 1)).tracker.lastEtaPublishAtMs = none
    simp only [pollTick, h]
    rfl

/-- From tick 2 on, every tick of the constant-rate run publishes: the rate is
the constant 1 and the published ETA is `creta k`. -/
lemma crRun_inv : ∀ k, 2 ≤ k → k ≤ 100 → CrInv k (crRun k) := by
  intro k
  induction k with
  | zero => omega
  | succ k ih =>
    intro h2 h100
    by_cases hk : k < 2
    · have hk1 : k = 1 := by omega
      subst hk1
      obtain ⟨hr, -, hlp, hlt, hpub⟩ := crRun_one
      exact crStep 1 (crRun 1) (le_refl 1) h100 (Or.inl hr) hlp hlt (by rw [hpub]; rfl)
    · have hinv := ih (by omega) (by omega)
      obtain ⟨hr, -, hlp, hlt, hpubAt, -⟩ := hinv
      refine crStep k (crRun k) (by omega) h100 (Or.inr hr) hlp hlt ?_
      rw [hpubAt]
      simp only [shouldPublishByTime, ETA_PUBLISH_MIN_INTERVAL_MS, Bool.or_eq_true,
        decide_eq_true_eq]
      right
      unfold crnow
      omega

/-- C2 counterexample: a run of 100 consecutive polling ticks (`crRun 1` …
`crRun 100`) in which the throughput rate is the constant `1` from the first
computed tick on, yet the published ETA takes the pairwise different values
`998920`, `998880`, `998840` at ticks 2, 3 and 4 — it changes (at least) twice
beyond the initial publish at tick 2, refuting "changes at most once". -/
theorem eta_hysteresis_counterexample :
    ((List.range 99).map fun i => (crRun (i + 2)).status.rate) =
      List.replicate 99 (some (1 : ℚ)) ∧
    (crRun 1).status.eta_seconds = none ∧
    (crRun 2).status.eta_seconds = some 998920 ∧
    (crRun 3).status.eta_seconds = some 998880 ∧
    (crRun 4).status.eta_seconds = some 998840 ∧
    (998920 : ℚ) ≠ 998880 ∧ (998880 : ℚ) ≠ 998840 := by
  refine ⟨?_, crRun_one.2.1, ?_, ?_, ?_, by norm_num, by norm_num⟩
  · apply List.ext_getElem
    · simp
    · intro i h1 h2
      simp only [List.getElem_map, List.getElem_range, List.getElem_replicate]
      have hi : i < 99 := by simpa using h1
      exact (crRun_inv (i + 2) (by omega) (by omega)).1
  · have h := (crRun_inv 2 (by norm_num) (by norm_num)).2.1
    rw [h]
    norm_num [creta]
  · have h := (crRun_inv 3 (by norm_num) (by norm_num)).2.1
    rw [h]
    norm_num [creta]
  · have h := (crRun_inv 4 (by norm_num) (by norm_num)).2.1
    rw [h]
    norm_num [creta]

/-- C2 amended: with an unchanged rate the published ETA is not limited to a
single change per 100 ticks; rather, on any running tick it can change only
when the publish gate fires — at least 30 wall-seconds since the last publish,
or a recomputed ETA differing from the last published one by at least 60
seconds. -/
theorem eta_change_implies_gate
    (s : PollState) (p lastP : ProgressData) (sdOpt : Option StateData) (now lastT : ℤ)
    (hg : etaGuard (some p) = true)
    (hlp : s.tracker.lastProgressData = some lastP)
    (hlt : s.tracker.lastPollTime = some lastT) (hlt0 : ¬ lastT = 0)
    (hpos : simSecondsPerTick p lastP > 0 ∧ wallSecondsPerTick now lastT > 0)
    (hsr : remainingSimSeconds p > 0 ∧
      smoothedRateOf s.status.rate
        (simSecondsPerTick p lastP / wallSecondsPerTick now lastT) > 0)
    (hfin : p.estimated_finish_iso = none)
    (hsec : p.estimated_finish_seconds = none) :
    (pollTick s (some p) sdOpt now).status.eta_seconds ≠ s.status.eta_seconds →
      shouldPublishByTime s.tracker.lastEtaPublishAtMs now = true ∨
      shouldPublishByDelta s.tracker.lastEtaPublishedSeconds
        (mathRound (remainingSimSeconds p / smoothedRateOf s.status.rate
          (simSecondsPerTick p lastP / wallSecondsPerTick now lastT))) = true := by
  intro hch
  by_contra hng
  push_neg at hng
  obtain ⟨ht, hd⟩ := hng
  have hgate : (shouldPublishByTime s.tracker.lastEtaPublishAtMs now
      || shouldPublishByDelta s.tracker.lastEtaPublishedSeconds
        (mathRound (remainingSimSeconds p / smoothedRateOf s.status.rate
          (simSecondsPerTick p lastP / wallSecondsPerTick now lastT)))) = false := by
    rw [Bool.eq_false_iff]
    intro hor
    rcases Bool.or_eq_true_iff.mp hor with h | h
    · exact ht h
    · exact hd h
  have h := etaStep_noPublish s.status s.tracker s.sess p lastP now lastT
    hg hlp hlt hlt0 hpos hsr hgate
  have hfin' : (some p).bind (·.estimated_finish_iso) = none := by simpa using hfin
  have hsec' : (some p).bind (·.estimated_finish_seconds) = none := by simpa using hsec
  apply hch
  simp only [pollTick, h]
  exact (deriveStep_eta _ _ _ _ hfin' hsec').1.trans rfl

/-! ## Concrete witnesses -/

/-- A previous running snapshot: simulated clock at 1000, horizon 10000. -/
def wPrev : ProgressData :=
  { sim_time_epoch := some 1000, max_epoch := some 10000, state := some "running",
    progress_percent := none, progress := none, total_buys := none,
    total_sells := none, sim_time_iso := none, current_runner_info := none,
    estimated_finish_iso := none, estimated_finish_seconds := none, timeframes := none }

/-- The next running snapshot: simulated clock advanced to 2000. -/
def wCur : ProgressData :=
  { sim_time_epoch := some 2000, max_epoch := some 10000, state := some "running",
    progress_percent := none, progress := none, total_buys := none,
    total_sells := none, sim_time_iso := none, current_runner_info := none,
    estimated_finish_iso := none, estimated_finish_seconds := none, timeframes := none }

/-- Store state that has seen `wPrev` at wall time 1000 ms, never published. -/
def wState : PollState :=
  { status := idleStatus,
    tracker := { lastProgressData := some wPrev, lastPollTime := some 1000,
                 lastEtaPublishAtMs := none, lastEtaPublishedSeconds := none },
    sess := { etaCache := none, simCache := none, importCacheSet := false } }

lemma wGuard : etaGuard (some wCur) = true := by
  norm_num [etaGuard, wCur, truthyQ]

lemma wPos : simSecondsPerTick wCur wPrev > 0 ∧ wallSecondsPerTick 2000 1000 > 0 := by
  constructor
  · norm_num [simSecondsPerTick, wCur, wPrev]
  · norm_num [wallSecondsPerTick]

lemma wSr : remainingSimSeconds wCur > 0 ∧
    smoothedRateOf wState.status.rate
      (simSecondsPerTick wCur wPrev / wallSecondsPerTick 2000 1000) > 0 := by
  constructor
  · norm_num [remainingSimSeconds, wCur]
  · norm_num [smoothedRateOf, truthyQ, wState, idleStatus, simSecondsPerTick,
      wallSecondsPerTick, wCur, wPrev]

/-- Witness for C1 at a concrete publishing tick. -/
theorem eta_publish_gate_iff_witness :
    (pollTick wState (some wCur) none 2000).status.eta_seconds =
      some ((mathRound (remainingSimSeconds wCur / smoothedRateOf wState.status.rate
        (simSecondsPerTick wCur wPrev / wallSecondsPerTick 2000 1000)) : ℤ) : ℚ) :=
  ((eta_publish_gate_iff wState wCur wPrev none 2000 1000 wGuard rfl rfl
      (by norm_num) wPos wSr rfl rfl).1 rfl).1

/-- Witness for C3: with no previous rate the published rate is the raw ratio. -/
theorem rate_ema_correct_witness :
    (pollTick wState (some wCur) none 2000).status.rate =
      some (simSecondsPerTick wCur wPrev / wallSecondsPerTick 2000 1000) :=
  (rate_ema_correct wState wCur wPrev none 2000 1000 wGuard rfl rfl
      (by norm_num) wPos).1 rfl

/-- Witness for C10 at a tick whose wall-clock delta is zero: nothing moves. -/
theorem eta_computation_safety_witness :
    (pollTick wState (some wCur) none 1000).status.rate = wState.status.rate ∧
    (pollTick wState (some wCur) none 1000).status.eta_seconds =
      wState.status.eta_seconds :=
  (eta_computation_safety wState wCur wPrev none 1000 1000 wGuard rfl rfl
      (by norm_num) rfl rfl).1 (by norm_num [wallSecondsPerTick])

/-- Witness for the amended C2 at a concrete running tick whose published ETA
does change. -/
theorem eta_change_implies_gate_witness :
    shouldPublishByTime wState.tracker.lastEtaPublishAtMs 2000 = true ∨
    shouldPublishByDelta wState.tracker.lastEtaPublishedSeconds
      (mathRound (remainingSimSeconds wCur / smoothedRateOf wState.status.rate
        (simSecondsPerTick wCur wPrev / wallSecondsPerTick 2000 1000))) = true :=
  eta_change_implies_gate wState wCur wPrev none 2000 1000 wGuard rfl rfl
    (by norm_num) wPos wSr rfl rfl
    (by
      have h := etaStep_publish wState.status wState.tracker wState.sess wCur wPrev
        2000 1000 wGuard rfl rfl (by norm_num) wPos wSr rfl
      simp only [pollTick, h]
      rw [(deriveStep_eta _ _ none (some wCur) rfl rfl).1]
      simp [wState, idleStatus])

/-- A fresh cached ETA entry written 30 seconds before the witness poll. -/
def wCache : EtaCacheEntry :=
  { whenMs := 500, etaSeconds := some 42, finishIso := some 99, rate := some 1 }

/-- An idle store state holding `wCache` in the session ETA cache. -/
def wIdleState : PollState :=
  { status := idleStatus,
    tracker := { lastProgressData := none, lastPollTime := none,
                 lastEtaPublishAtMs := none, lastEtaPublishedSeconds := none },
    sess := { etaCache := some wCache, simCache := none, importCacheSet := false } }

/-- Witness for C6: a 30-second-old cached ETA is still served while idle. -/
theorem eta_retained_within_ttl_witness :
    (pollTick wIdleState none none 30500).status.eta_seconds = some 42 ∧
    (pollTick wIdleState none none 30500).status.estimated_finish_iso = some 99 :=
  (eta_retained_within_ttl wIdleState none none 30500 rfl rfl rfl).1 wCache
    (by norm_num [readEtaCache, ETA_TTL_MS, wIdleState, wCache])

/-- Witness for the amended C5: an in-range raw percent stays in range. -/
theorem progress_percent_round_passthrough_witness :
    0 ≤ (pollTick initState (some wCur) none 2000).status.progress_percent ∧
    (pollTick initState (some wCur) none 2000).status.progress_percent ≤ 100 :=
  (progress_percent_round_passthrough initState (some wCur) none 2000).2
    (by norm_num [rawPercent, wCur]) (by norm_num [rawPercent, wCur])

/-- Reset-status responses: pending on the first poll, then completed. -/
def wResponses : ℕ → Option ResetStatusResp := fun k =>
  if k = 0 then some { status := some "pending", error := none, deleted := none }
  else some { status := some "completed", error := none, deleted := none }

/-- Witness for C4: the polled `completed` status makes reset report success. -/
theorem reset_terminal_status_driven_witness :
    (resetRun initState wResponses).2.ok = true :=
  (reset_terminal_status_driven initState wResponses).1.mpr
    ⟨{ status := some "completed", error := none, deleted := none },
     (reset_terminal_status_driven initState wResponses).2 1
       (by norm_num [RESET_MAX_POLLS])
       (by rfl)
       (by
         intro j hj
         have hj0 : j = 0 := by omega
         subst hj0
         rfl),
     rfl⟩

/-- Reset-status responses that never become terminal. -/
def wFailResponses : ℕ → Option ResetStatusResp := fun _ =>
  some { status := some "pending", error := none, deleted := none }

/-- Witness for C8: a reset that times out leaves the store state untouched. -/
theorem reset_failure_leaves_state_witness :
    (resetRun initState wFailResponses).1 = initState :=
  (reset_failure_leaves_state initState wFailResponses).1 (by rfl)

/-- Witness for C7: the weighted P&L % of two concrete records is invariant
under swapping them. -/
theorem weighted_pnl_perm_invariant_witness :
    weightedPnlPct [⟨10, 100⟩, ⟨5, 10⟩] = weightedPnlPct [⟨5, 10⟩, ⟨10, 100⟩] :=
  weighted_pnl_perm_invariant.1 _ _ (List.Perm.swap _ _ _)

/-- A backend row mixing null, non-numeric string, undefined and negative
values. -/
def nastyRow : RawRow :=
  { bucket := JSVal.null, weighted_pct := JSVal.str .nan .nan,
    avg_pct := JSVal.undef, trades := JSVal.num (.fin (-5)) }

/-- A summary payload carrying only the nasty row. -/
def nastySummary : RawSummary :=
  { pnl_by_year := some [nastyRow], pnl_by_timeframe := none, pnl_by_strategy := none }

/-- The row `normalizeSummary` produces from `nastyRow`. -/
def nastyNorm : NormRow :=
  { bucket := nastyRow.bucket, weighted_pct := safeNumber nastyRow.weighted_pct,
    avg_pct := safeNumber nastyRow.avg_pct, trades := safeInt nastyRow.trades }

/-- Witness for C9 on the nasty row. -/
theorem normalize_results_safe_witness :
    (∃ q, nastyNorm.weighted_pct = .fin q) ∧ (∃ q, nastyNorm.avg_pct = .fin q) ∧
    (∃ k : ℤ, 0 ≤ k ∧ nastyNorm.trades = .fin (k : ℚ)) :=
  (normalize_results_safe (some nastySummary) none).1 nastyNorm
    (Or.inl (by simp [normalizeSummary, mapRows, nastySummary, nastyNorm]))

end SelfTrading
